import Mathlib

/-!
Verification of the extraction / classification / deduplication / refinement
pipeline of the HR-lead-agent repository.

The Python sources are shallowly embedded as total Lean functions:

* string primitives (`strip`, `lower`, `upper`, `startswith`, `endswith`,
  `in`, `replace`, `split`) are modelled character-exactly on `List Char`
  (ASCII semantics, which is what every string handled by the pipeline uses);
* `ast.literal_eval` is an external Python library call; its outcome is passed
  in explicitly as an `Option PyVal` argument (`none` models an exception),
  so every branch that the repository code takes on that outcome is embedded
  faithfully;
* the two fixed `re.findall` calls of `parse_analysis_results` are likewise
  passed in as explicit match-list arguments, while every other regular
  expression of the sources (the URL scanner, the two `re.sub` rewrites and
  the label-prefix rewrite) is implemented directly;
* the CrewAI collaborators invoked by `analyze_company` are external; their
  behaviours (missing agent, task-creation failure, raised exception, absent
  or empty output, raw text output) are enumerated in an environment record
  and the control flow of `analyze_company` over those outcomes is embedded
  faithfully.

Every embedded function is computable, so all concrete evaluations below go
through `decide` / `rfl`.
-/

/-- Character set of Python's `str.strip()` / `\s` (ASCII range). -/
def pySpace (c : Char) : Bool :=
  c = ' ' || c = '\t' || c = '\n' || c = '\r' || c = Char.ofNat 11 || c = Char.ofNat 12

/-- List-level embedding of Python `str.strip()`. -/
def pyStripList (l : List Char) : List Char :=
  (l.dropWhile pySpace).rdropWhile pySpace

/-- Python `s.strip()`. -/
def pyStrip (s : String) : String := ⟨pyStripList s.toList⟩

/-- Python `s.lower()` (ASCII). -/
def pyLower (s : String) : String := ⟨s.toList.map Char.toLower⟩

/-- Python `s.upper()` (ASCII). -/
def pyUpper (s : String) : String := ⟨s.toList.map Char.toUpper⟩

/-- List-level prefix check (Python `startswith`). -/
def listIsPre (p l : List Char) : Bool :=
  match p, l with
  | [], _ => true
  | _ :: _, [] => false
  | a :: ps, b :: ls => a = b && listIsPre ps ls

/-- Python `s.startswith(p)`. -/
def pyStartsWith (s p : String) : Bool := listIsPre p.toList s.toList

/-- List-level suffix check (Python `endswith`). -/
def listIsSuf (p l : List Char) : Bool := listIsPre p.reverse l.reverse

/-- Python `s.endswith(p)`. -/
def pyEndsWith (s p : String) : Bool := listIsSuf p.toList s.toList

/-- List-level substring check (Python `needle in hay`). -/
def listIsSub (p : List Char) : List Char → Bool
  | [] => listIsPre p []
  | l@(_ :: t) => listIsPre p l || listIsSub p t

/-- Python `needle in hay` for strings. -/
def pyIn (needle hay : String) : Bool := listIsSub needle.toList hay.toList

/-- Tail of `l` after the first occurrence of the character `c`
(`s.split(c, 1)[1]`; empty when `c` does not occur). -/
def afterFirstChar (c : Char) : List Char → List Char
  | [] => []
  | b :: t => if b = c then t else afterFirstChar c t

/-- Embedding of the shared `"FINAL ANSWER:"` prefix removal used by
`parse_url_list` (src/url_processor.py lines 37-38) and
`parse_analysis_results` (src/company_extractor.py lines 78-79):
when the stripped, upper-cased text starts with `FINAL ANSWER:` the text is
replaced by the stripped tail after the first colon. -/
def stripFinalAnswer (s : String) : String :=
  if pyStartsWith (pyUpper (pyStrip s)) "FINAL ANSWER:" then
    pyStrip ⟨afterFirstChar ':' s.toList⟩
  else s

/-- Python values, as far as the repository inspects `ast.literal_eval`
results: strings, numbers, lists, dicts with string keys, and `None`.
Dict access (`item.get(k)`) is first-match lookup. -/
inductive PyVal where
  | str (s : String)
  | int (n : Int)
  | list (l : List PyVal)
  | dict (l : List (String × PyVal))
  | none

/-- Python `item.get(k)` on an embedded dict entry list. -/
def pyGet (d : List (String × PyVal)) (k : String) : Option PyVal :=
  match d.find? (fun kv => kv.1 = k) with
  | some kv => some kv.2
  | Option.none => Option.none

/- ---------------------------------------------------------------------
URL extraction: src/url_processor.py, parse_url_list (lines 14-59).
--------------------------------------------------------------------- -/

/-- Body character class of the URL regex `https?://[^\s\x27\x22\]\[\<\>]+`
(src/url_processor.py line 49). -/
def urlBodyChar (c : Char) : Bool :=
  !(pySpace c || c = Char.ofNat 39 || c = Char.ofNat 34 ||
    c = ']' || c = '[' || c = '<' || c = '>')

/-- Characters of the scheme alternative `https://`. -/
def schemeHttps : List Char := ['h','t','t','p','s',':','/','/']

/-- Characters of the scheme alternative `http://`. -/
def schemeHttp : List Char := ['h','t','t','p',':','/','/']

/-- Attempted regex match of `https?://[^\s\x27\x22\]\[\<\>]+` anchored at the
head of `l`: on success, the matched characters and the remaining input. -/
def urlToken (l : List Char) : Option (List Char × List Char) :=
  if listIsPre schemeHttps l then
    let rest := l.drop 8
    let body := rest.takeWhile urlBodyChar
    if body.isEmpty then Option.none
    else some (schemeHttps ++ body, rest.dropWhile urlBodyChar)
  else if listIsPre schemeHttp l then
    let rest := l.drop 7
    let body := rest.takeWhile urlBodyChar
    if body.isEmpty then Option.none
    else some (schemeHttp ++ body, rest.dropWhile urlBodyChar)
  else Option.none

/-- Fuelled scan implementing `re.findall` for the URL pattern: at each
position try a match; on success emit it and resume after the match, else
advance one character. The fuel is the input length, which bounds the number
of steps since every step consumes at least one character. -/
def findAllUrlsGo : Nat → List Char → List (List Char)
  | 0, _ => []
  | _, [] => []
  | fuel + 1, l@(_ :: t) =>
    match urlToken l with
    | some (m, rest) => m :: findAllUrlsGo fuel rest
    | Option.none => findAllUrlsGo fuel t

/-- All regex matches of the URL pattern in `l`, leftmost, non-overlapping. -/
def findAllUrls (l : List Char) : List (List Char) :=
  findAllUrlsGo l.length l

/-- Character set of the edge trim `url.strip('.,)("')`
(src/url_processor.py line 50). -/
def urlTrimChar (c : Char) : Bool :=
  c = '.' || c = ',' || c = ')' || c = '(' || c = Char.ofNat 34

/-- Python `url.strip('.,)(\x22')`: trim those characters from both ends. -/
def stripUrlEdges (l : List Char) : List Char :=
  (l.dropWhile urlTrimChar).rdropWhile urlTrimChar

/-- Non-page asset extensions filtered by src/url_processor.py line 52. -/
def badExtensions : List String :=
  [".png", ".jpg", ".jpeg", ".gif", ".css", ".js", ".svg", ".webp", ".pdf"]

/-- Python `url.lower().endswith(('.png', ...))`. -/
def hasBadExtension (u : String) : Bool :=
  badExtensions.any (fun e => pyEndsWith (pyLower u) e)

/-- Fuelled first-occurrence deduplication (`list(dict.fromkeys(urls))`,
src/url_processor.py line 54): keep the first copy of each element,
preserving order. -/
def dedupFirstGo : Nat → List String → List String
  | 0, _ => []
  | _, [] => []
  | fuel + 1, x :: xs => x :: dedupFirstGo fuel (xs.filter (fun y => y ≠ x))

/-- First-occurrence order-preserving deduplication. -/
def dedupFirst (l : List String) : List String := dedupFirstGo l.length l

/-- Regex-scan result before deduplication: matches, edge-trimmed, with
known non-page extensions filtered out (src/url_processor.py lines 49-52). -/
def regexUrlsPre (s : String) : List String :=
  ((findAllUrls s.toList).map (fun m => (⟨stripUrlEdges m⟩ : String))).filter
    (fun u => !hasBadExtension u)

/-- Fallback branch of `parse_url_list` (src/url_processor.py lines 48-56):
regex scan, trim, extension filter, first-seen dedup. -/
def regexUrlFallback (s : String) : List String := dedupFirst (regexUrlsPre s)

/-- Strict-path filter of `parse_url_list` (src/url_processor.py line 42):
`[str(item).strip() for item in potential_list if isinstance(item, str) and
item.strip().startswith('http')]`. -/
def astUrlFilter (l : List PyVal) : List String :=
  l.filterMap fun v =>
    match v with
    | PyVal.str s => if pyStartsWith (pyStrip s) "http" then some (pyStrip s) else Option.none
    | _ => Option.none

/-- Embedding of `parse_url_list` (src/url_processor.py lines 14-59).
`ev` is the outcome of `ast.literal_eval` applied to the cleaned text
(`none` models a raised exception). When the literal is a list, the filtered
list is returned (the `return urls` on line 44 fires even when the filter
kept nothing); otherwise control falls through to the regex fallback on the
cleaned text. Non-string input (line 30) returns `[]` and is not modelled
further since every claim concerns string input. -/
def parse_url_list (ev : Option PyVal) (agent_output : String) : List String :=
  let cleaned := stripFinalAnswer agent_output
  match ev with
  | some (PyVal.list l) => astUrlFilter l
  | _ => regexUrlFallback cleaned

example : parse_url_list Option.none "x [\"a\"] https://a.com/logo.png see http://b.org/x, done" = ["http://b.org/x"] := by decide

example :
    parse_url_list (some (PyVal.list [PyVal.str " https://a.com "])) "ignored" = ["https://a.com"] := by decide

/- ---------------------------------------------------------------------
Company extraction: src/company_extractor.py, parse_company_website_list
(lines 15-59).
--------------------------------------------------------------------- -/

/-- Validated company candidate ({'name': ..., 'website': ...}). -/
structure Company where
  name : String
  website : String
deriving DecidableEq

/-- Strict-path filter of `parse_company_website_list`
(src/company_extractor.py lines 40-46): keep dict items whose `name` and
`website` are strings with `name.strip()` truthy, `website.strip()` starting
with `http` and `1 < len(name) < 60` (checked on the unstripped name); the
stored entry holds the stripped fields. -/
def astCompanyFilter (l : List PyVal) : List Company :=
  l.filterMap fun item =>
    match item with
    | PyVal.dict d =>
      match pyGet d "name", pyGet d "website" with
      | some (PyVal.str name), some (PyVal.str website) =>
        if pyStrip name ≠ "" ∧ pyStartsWith (pyStrip website) "http" = true ∧
            1 < name.length ∧ name.length < 60 then
          some ⟨pyStrip name, pyStrip website⟩
        else Option.none
      | _, _ => Option.none
    | _ => Option.none

/-- Embedding of `parse_company_website_list` (src/company_extractor.py
lines 15-59). `ev` is the outcome of `ast.literal_eval` on the cleaned text
(`none` models an exception). A parsed list yields the filtered entries
(lines 47-52 return them when non-empty and fall through to `return []`
otherwise, which is the same value); a non-list literal or a parse failure
yields `[]` (lines 53-59) — company extraction has no regex fallback. -/
def parse_company_website_list (ev : Option PyVal) : List Company :=
  match ev with
  | some (PyVal.list l) => astCompanyFilter l
  | _ => []

/- ---------------------------------------------------------------------
Classifier: src/main.py, classify_company (lines 102-120).
--------------------------------------------------------------------- -/

/-- Keyword set of the HR classifier (src/main.py lines 110-111). -/
def hr_keywords : List String :=
  ["hr-", "human-resources", "recruiting", "payroll", "benefits",
   "talent-acquisition", "hrtech", "hcm", "applicant-tracking"]

/-- Embedding of `classify_company` (src/main.py lines 102-120): `"HR"` when
any keyword occurs in the lower-cased source URL, `"NE_B2B"` otherwise. The
`company_name` and `company_website` arguments are accepted and ignored,
exactly as in the source. -/
def classify_company (company_name company_website source_url : String) : String :=
  let source_lower := pyLower source_url
  if hr_keywords.any (fun keyword => pyIn keyword source_lower) then "HR"
  else "NE_B2B"

/- ---------------------------------------------------------------------
Deduplication: src/main.py, main loop (lines 172-198).
--------------------------------------------------------------------- -/

/-- Generic-name blocklist (src/config.py lines 57-60). -/
def GENERIC_COMPANY_NAMES : List String :=
  ["company", "organization", "the firm", "client",
   "example", "test", "none", "n/a", "website", "url"]

/-- Normalized dedup key of src/main.py lines 182-186: lower-cased stripped
website, with a leading `www.` dropped when the string itself starts with
`www.`, then one trailing slash dropped. -/
def normalized_website (w : String) : String :=
  let n := pyLower (pyStrip w)
  let n := if pyStartsWith n "www." then (⟨n.toList.drop 4⟩ : String) else n
  if pyEndsWith n "/" then (⟨n.toList.dropLast⟩ : String) else n

/-- Embedding of the per-candidate admission logic of the main loop
(src/main.py lines 172-198): skip when name or website is missing, skip when
the normalized key was already seen this run, skip generic names, otherwise
record the key and admit. Returns (admitted?, updated seen-set). -/
def processCandidate (seen : List String) (company_name company_website : String) :
    Bool × List String :=
  if company_name = "" ∨ company_website = "" then (false, seen)
  else
    let key := normalized_website company_website
    if key ∈ seen then (false, seen)
    else if pyLower company_name ∈ GENERIC_COMPANY_NAMES then (false, seen)
    else (true, key :: seen)

/- ---------------------------------------------------------------------
Success predicate: src/main.py lines 229-232.
--------------------------------------------------------------------- -/

/-- Finalized company record as produced by `analyze_company`
(src/company_extractor.py lines 196-202; `source_url` is attached later by
the main loop and plays no role in any claim). -/
structure CompanyRecord where
  name : String
  website : String
  pain_points : String
  contact_email : String
  category : String
deriving DecidableEq

/-- Embedding of the `successful_analyses` filter (src/main.py lines
229-232): records whose `pain_points` start with neither failure-marker
prefix. Records are always dicts here, so the `isinstance` guard is vacuous. -/
def successful_analyses (l : List CompanyRecord) : List CompanyRecord :=
  l.filter fun c =>
    !pyStartsWith c.pain_points "Analysis failed" &&
    !pyStartsWith c.pain_points "Analysis skipped"

example : classify_company "X" "Y" "https://hr-insights.com/articles" = "HR" := by decide
example : classify_company "X" "Y" "newengland-biz.org" = "NE_B2B" := by decide
example : normalized_website " https://Acme.com/ " = "https://acme.com" := by decide
example : normalized_website "www.acme.com/" = "acme.com" := by decide
example : (processCandidate [] "A" "https://acme.com/").1 = true := by decide

/- ---------------------------------------------------------------------
Analysis-result parsing: src/company_extractor.py, parse_analysis_results
(lines 61-121).
--------------------------------------------------------------------- -/

/-- Placeholder / test tokens rejected by the email filter
(src/company_extractor.py lines 87-88). -/
def invalidEmailTokens : List String :=
  ["example.com", "test", "error", "yourdomain.com", "email@", "sentry.io"]

/-- Python `e.split('@')[-1]`: the part after the last `@` (the whole string
when there is no `@`). -/
def emailDomainPart (l : List Char) : List Char :=
  (l.reverse.takeWhile (fun c => c ≠ '@')).reverse

/-- Email validity filter of src/company_extractor.py lines 87-88: contains
`@`, a dot in the domain part, and no known placeholder token. -/
def isValidEmail (e : String) : Bool :=
  pyIn "@" e && pyIn "." ⟨emailDomainPart e.toList⟩ &&
    !(invalidEmailTokens.any (fun t => pyIn t (pyLower e)))

/-- First valid email of the regex matches, else `""`
(src/company_extractor.py lines 90-91). -/
def selectedEmail (email_matches : List String) : String :=
  match email_matches.filter isValidEmail with
  | [] => ""
  | e :: _ => e

/-- Character class `[\s*-]` of the leading bullet / dash rewrite. -/
def bulletChar (c : Char) : Bool := pySpace c || c = '*' || c = '-'

/-- Embedding of `re.sub(r'^[\s*-]+', '', text, flags=re.MULTILINE)`:
drop maximal runs of `[\s*-]` that start at a line start. The flag records
whether the current position is a line start or inside a dropped run (the
two behave identically: class characters are dropped); after emitting a
character the flag is set exactly when that character was a newline. -/
def subBulletsGo : Bool → List Char → List Char
  | _, [] => []
  | dropHere, c :: rest =>
    if dropHere && bulletChar c then subBulletsGo true rest
    else c :: subBulletsGo (c = '\n') rest

/-- String form of the bullet rewrite (it always acts on a full string, whose
start is a line start). -/
def subBullets (s : String) : String := ⟨subBulletsGo true s.toList⟩

/-- Label alternatives of the pain-points pattern
`(?:Pain Points?|Challenges?|Issues?|Analysis|Opportunities)`, lower-cased,
in Python alternation order (with the optional `s?` expanded greedily). -/
def labelAlts : List (List Char) :=
  ["pain points".toList, "pain point".toList, "challenges".toList,
   "challenge".toList, "issues".toList, "issue".toList,
   "analysis".toList, "opportunities".toList]

/-- Embedding of the suffix `(?:\s*:|\s*\n)` after a label: either the
maximal whitespace run is followed by `:` (consume run and colon), or the
run contains a newline (consume through the last newline in the run, where
the greedy `\s*` backtracks to). Returns the remaining input on a match. -/
def labelSuffix (l : List Char) : Option (List Char) :=
  let ws := l.takeWhile pySpace
  let rest := l.drop ws.length
  match rest with
  | ':' :: r => some r
  | _ =>
    match ws.reverse.findIdx? (fun c => c = '\n') with
    | some k => some (l.drop (ws.length - k))
    | Option.none => Option.none

/-- Attempted match of one lower-cased label alternative at the head of `l`
(case-insensitive), followed by `labelSuffix`. -/
def tryLabel (lab l : List Char) : Option (List Char) :=
  if listIsPre lab (l.map Char.toLower) then labelSuffix (l.drop lab.length)
  else Option.none

/-- Embedding of `re.sub(r'^(?:Pain Points?|Challenges?|Issues?|Analysis|'
`Opportunities)(?:\s*:|\s*\n)', '', text, flags=re.IGNORECASE)` (no
MULTILINE: only a match anchored at the string start is removed, and at most
one since the pattern cannot match empty text). Alternatives are tried in
Python's ordered-alternation style. -/
def stripLabelHead (s : String) : String :=
  let cs := s.toList
  let rec firstHit : List (List Char) → Option (List Char)
    | [] => Option.none
    | lab :: labs =>
      match tryLabel lab cs with
      | some r => some r
      | Option.none => firstHit labs
  match firstHit labelAlts with
  | some r => (⟨r⟩ : String)
  | Option.none => s

/-- Tail of `l` after the first occurrence of the pattern `pat`
(`s.split(pat, 1)[1]`; empty when `pat` does not occur). -/
def afterFirstSubList (pat : List Char) : List Char → List Char
  | [] => []
  | l@(_ :: t) => if listIsPre pat l then l.drop pat.length else afterFirstSubList pat t

/-- Fuelled embedding of Python `s.replace(pat, '')` for non-empty `pat`:
remove leftmost non-overlapping occurrences. Each step consumes at least one
character, so fuel = input length suffices. -/
def removeAllGo (pat : List Char) : Nat → List Char → List Char
  | 0, l => l
  | _, [] => []
  | fuel + 1, l@(c :: t) =>
    if pat ≠ [] && listIsPre pat l then removeAllGo pat fuel (l.drop pat.length)
    else c :: removeAllGo pat fuel t

/-- Python `s.replace(pat, '')` for non-empty `pat` (the only use, guarded by
`if email:` in the source). -/
def pyRemoveAll (s pat : String) : String := ⟨removeAllGo pat.toList s.toList.length s.toList⟩

/-- Sentinel of src/company_extractor.py line 118. -/
def sentinelNoPain : String := "No specific pain points identified in the output."

/-- Pre-fallback pain-points narrative of `parse_analysis_results`
(src/company_extractor.py lines 93-110), with the two `re.findall` outcomes
passed in (`email_matches` for the email pattern on line 86, `pain_matches`
for the capture groups of the labeled-section pattern on lines 94-95):
a labeled-section match is stripped and bullet-cleaned; otherwise, when a
valid email occurs in the text, the text after it is label- and
bullet-cleaned; otherwise the whole stripped text is used, and a narrative
equal to the email alone is zeroed out (lines 109-110). -/
def painPreFallback (email_matches pain_matches : List String) (result : String) : String :=
  let r := stripFinalAnswer result
  let email := selectedEmail email_matches
  match pain_matches with
  | m :: _ => pyStrip (subBullets (pyStrip m))
  | [] =>
    let pain :=
      if email ≠ "" ∧ pyIn email r = true then
        pyStrip (subBullets (pyStrip (stripLabelHead (pyStrip ⟨afterFirstSubList email.toList r.toList⟩))))
      else pyStrip r
    if email ≠ "" ∧ pain = email then "" else pain

/-- Residual text of the final fallback (src/company_extractor.py line 114):
`result.replace(email, '').strip() if email else result.strip()`, applied to
the prefix-stripped text. -/
def residualText (email_matches : List String) (result : String) : String :=
  let r := stripFinalAnswer result
  let email := selectedEmail email_matches
  if email ≠ "" then pyStrip (pyRemoveAll r email) else pyStrip r

/-- Embedding of `parse_analysis_results` on string input
(src/company_extractor.py lines 76-121), with the two `re.findall` outcomes
passed in. Returns `(email, pain_points)`. When the pre-fallback narrative
strips to empty, the residual text is used if non-empty and longer than 10
characters, else the sentinel (lines 112-118). -/
def parse_analysis_results (email_matches pain_matches : List String)
    (result : String) : String × String :=
  let email := selectedEmail email_matches
  let pain0 := painPreFallback email_matches pain_matches result
  if pyStrip pain0 = "" then
    let text_without_email := residualText email_matches result
    if text_without_email ≠ "" ∧ text_without_email.length > 10 then
      (email, text_without_email)
    else (email, sentinelNoPain)
  else (email, pain0)

/-- Embedding of the `isinstance(result, str)` guard of
`parse_analysis_results` (src/company_extractor.py lines 73-75): non-string
input yields `{"email": "", "pain_points": "Analysis failed - non-string
result"}` directly. -/
def parse_analysis_results_any (email_matches pain_matches : List String)
    (result : PyVal) : String × String :=
  match result with
  | PyVal.str s => parse_analysis_results email_matches pain_matches s
  | _ => ("", "Analysis failed - non-string result")

example :
    parse_analysis_results ["info@acme-hr.com"] [" scaling support staff"]
      "Email: info@acme-hr.com\nPain Points: scaling support staff" =
      ("info@acme-hr.com", "scaling support staff") := by decide
example : parse_analysis_results [] [] "   " = ("", sentinelNoPain) := by decide
example :
    parse_analysis_results [] [] "Analysis skipped: no relevant pain points" =
      ("", "Analysis skipped: no relevant pain points") := by decide

/- ---------------------------------------------------------------------
Per-record workflow: src/company_extractor.py, analyze_company
(lines 182-374).
--------------------------------------------------------------------- -/

/-- Outcome of one external CrewAI invocation (`kickoff` / `execute_task`):
a raised exception (with class name and message), a falsy result object, a
truthy object whose raw string cannot be extracted (unexpected type), or a
raw string (an empty raw string is handled by the code's truthiness checks). -/
inductive KickRes where
  | raises (ename emsg : String)
  | noObj
  | noRaw
  | raw (s : String)

/-- Behaviours of all external collaborators consumed by one
`analyze_company` call. Agent-validity flags model
`agents.get(key)`-and-`isinstance` checks; task-creation flags model the
`create_*_task(...) is None` checks (those helpers catch their own
exceptions and return `None`, src/tasks.py lines 167-182 and 241-256); the
`re.findall` outcomes for the two `parse_analysis_results` calls are carried
alongside the corresponding raw outputs. -/
structure AnalyzeEnv where
  hrAnalysisValid : Bool
  hrReviewerValid : Bool
  neAnalysisValid : Bool
  neReviewerValid : Bool
  analysisTaskCreated : Bool
  analysisKick : KickRes
  analysisEmailMatches : List String
  analysisPainMatches : List String
  reviewTaskCreated : Bool
  reviewExec : KickRes
  reviewEmailMatches : List String
  reviewPainMatches : List String

/-- Category-dispatched analysis-agent validity (src/company_extractor.py
lines 207-216 select the agent keys; lines 219-225 validate). -/
def analysisValidFor (env : AnalyzeEnv) (category : String) : Bool :=
  if category = "HR" then env.hrAnalysisValid
  else if category = "NE_B2B" then env.neAnalysisValid
  else false

/-- Category-dispatched reviewer-agent validity. -/
def reviewerValidFor (env : AnalyzeEnv) (category : String) : Bool :=
  if category = "HR" then env.hrReviewerValid
  else if category = "NE_B2B" then env.neReviewerValid
  else false

/-- Analysis-agent key name used in the skip message. -/
def analysisKeyFor (category : String) : String :=
  if category = "HR" then "hr_analysis" else "ne_b2b_analysis"

/-- Embedding of the review cycle of `analyze_company`
(src/company_extractor.py lines 301-358): skipped when the reviewer agent is
missing/invalid (303-304), when the initial pain points are empty or carry a
failure prefix (305-307), or when the review task is not created (320-321);
a raised review-execution exception, an absent output object or an
unextractable/empty raw string all keep `data` unchanged (331-358); a
non-empty raw string is parsed and its pain points replace the initial ones
exactly when non-empty, not `Analysis failed`-prefixed, and different from
the initial ones (343-350). -/
def reviewStage (env : AnalyzeEnv) (category initial_pain_points : String)
    (data : CompanyRecord) : CompanyRecord :=
  if reviewerValidFor env category = false then data
  else if initial_pain_points = "" ∨
      pyStartsWith initial_pain_points "Initial analysis failed" = true ∨
      pyStartsWith initial_pain_points "Analysis failed" = true then data
  else if env.reviewTaskCreated = false then data
  else
    match env.reviewExec with
    | KickRes.raw s =>
      if s = "" then data
      else
        let reviewed_pain_points :=
          (parse_analysis_results env.reviewEmailMatches env.reviewPainMatches s).2
        if reviewed_pain_points ≠ "" ∧
            pyStartsWith reviewed_pain_points "Analysis failed" = false ∧
            reviewed_pain_points ≠ initial_pain_points then
          { data with pain_points := reviewed_pain_points }
        else data
    | _ => data

/-- Embedding of `analyze_company` (src/company_extractor.py lines 182-374).
Control flow, in source order: invalid category returns a skip marker
(lines 207-216); missing analysis agent returns a skip marker (222-225);
failed analysis-task creation returns a failure marker (244-247); an
exception from the analysis crew is caught by the outer handler, which
stamps an `Analysis failed (category)` marker (364-371); otherwise the raw
output (when extractable and non-empty) is parsed into the initial email and
pain points (278-299), and the review cycle (`reviewStage`) may refine the
pain points. -/
def analyze_company (env : AnalyzeEnv) (company_name company_website category : String) :
    CompanyRecord :=
  let initial : CompanyRecord :=
    { name := company_name, website := company_website,
      pain_points := "Initial analysis did not run", contact_email := "",
      category := category }
  if category = "HR" ∨ category = "NE_B2B" then
    if analysisValidFor env category = false then
      { initial with pain_points := "Analysis skipped - " ++ analysisKeyFor category ++ " agent missing" }
    else if env.analysisTaskCreated = false then
      { initial with pain_points := "Analysis failed - Task creation error" }
    else
      match env.analysisKick with
      | KickRes.raises ename emsg =>
        { initial with pain_points :=
            "Analysis failed (" ++ category ++ "): Exception - " ++ ename ++ ": " ++ emsg }
      | kick =>
        let parsedInitial : String × String :=
          match kick with
          | KickRes.raw s =>
            if s = "" then ("", "Initial analysis failed: Could not extract raw output.")
            else parse_analysis_results env.analysisEmailMatches env.analysisPainMatches s
          | KickRes.noRaw => ("", "Initial analysis failed: Could not extract raw output.")
          | _ => ("", "Initial analysis failed: No output object.")
        let initial_email := parsedInitial.1
        let initial_pain_points := parsedInitial.2
        let data := { initial with contact_email := initial_email,
                                   pain_points := initial_pain_points }
        reviewStage env category initial_pain_points data
  else
    { initial with pain_points := "Analysis skipped - Invalid category: " ++ category }

example :
    (analyze_company
      { hrAnalysisValid := true, hrReviewerValid := true,
        neAnalysisValid := true, neReviewerValid := true,
        analysisTaskCreated := true,
        analysisKick := KickRes.raw "Email: info@acme-hr.com\nPain Points: scaling support staff",
        analysisEmailMatches := ["info@acme-hr.com"],
        analysisPainMatches := [" scaling support staff"],
        reviewTaskCreated := true,
        reviewExec := KickRes.raw "Pain Points: scaling regional support staff",
        reviewEmailMatches := [],
        reviewPainMatches := [" scaling regional support staff"] }
      "Acme HR" "https://acme-hr.com" "HR") =
    { name := "Acme HR", website := "https://acme-hr.com",
      pain_points := "scaling regional support staff",
      contact_email := "info@acme-hr.com", category := "HR" } := by decide

example :
    (analyze_company
      { hrAnalysisValid := true, hrReviewerValid := true,
        neAnalysisValid := true, neReviewerValid := true,
        analysisTaskCreated := true,
        analysisKick := KickRes.raises "ValueError" "boom",
        analysisEmailMatches := [], analysisPainMatches := [],
        reviewTaskCreated := true, reviewExec := KickRes.noObj,
        reviewEmailMatches := [], reviewPainMatches := [] }
      "A" "https://a.com" "NE_B2B").pain_points =
      "Analysis failed (NE_B2B): Exception - ValueError: boom" := by decide

/- ---------------------------------------------------------------------
Helper lemmas.
--------------------------------------------------------------------- -/

theorem dedupFirstGo_sublist : ∀ (f : Nat) (l : List String), List.Sublist (dedupFirstGo f l) l
  | 0, l => by simpa [dedupFirstGo] using List.nil_sublist l
  | _ + 1, [] => by simp [dedupFirstGo]
  | f + 1, x :: xs => by
    simp only [dedupFirstGo]
    exact List.Sublist.cons₂ x ((dedupFirstGo_sublist f _).trans (List.filter_sublist xs))

theorem dedupFirstGo_nodup : ∀ (f : Nat) (l : List String), (dedupFirstGo f l).Nodup
  | 0, _ => by simp [dedupFirstGo]
  | _ + 1, [] => by simp [dedupFirstGo]
  | f + 1, x :: xs => by
    simp only [dedupFirstGo, List.nodup_cons]
    refine ⟨fun hx => ?_, dedupFirstGo_nodup f _⟩
    have hmem := (dedupFirstGo_sublist f (xs.filter (fun y => y ≠ x))).mem hx
    have := (List.mem_filter.mp hmem).2
    simp at this

theorem dedupFirstGo_mem : ∀ (f : Nat) (l : List String) (a : String),
    a ∈ l → l.length ≤ f → a ∈ dedupFirstGo f l
  | 0, l, a, ha, hf => by
    cases l with
    | nil => simp at ha
    | cons x xs => simp at hf
  | _ + 1, [], a, ha, _ => by simp at ha
  | f + 1, x :: xs, a, ha, hf => by
    simp only [dedupFirstGo, List.mem_cons]
    rcases List.mem_cons.mp ha with h | h
    · exact Or.inl h
    · by_cases hax : a = x
      · exact Or.inl hax
      · refine Or.inr (dedupFirstGo_mem f _ a (List.mem_filter.mpr ⟨h, by simp [hax]⟩) ?_)
        exact le_trans (List.filter_sublist xs).length_le (Nat.le_of_succ_le_succ hf)

theorem dedupFirst_sublist (l : List String) : List.Sublist (dedupFirst l) l :=
  dedupFirstGo_sublist l.length l

theorem dedupFirst_nodup (l : List String) : (dedupFirst l).Nodup :=
  dedupFirstGo_nodup l.length l

theorem dedupFirst_mem (l : List String) (a : String) (ha : a ∈ l) : a ∈ dedupFirst l :=
  dedupFirstGo_mem l.length l a ha le_rfl

/-- Dead-branch fact behind the dedup divergence: a website whose stripped,
lower-cased form starts with `http` can never start with `www.`, so the
`www.`-stripping line of src/main.py lines 183-184 cannot fire on any
website admitted by `parse_company_website_list` (which guarantees an
`http` prefix). -/
theorem www_branch_unreachable_for_http (w : String)
    (h : pyStartsWith (pyLower (pyStrip w)) "http" = true) :
    pyStartsWith (pyLower (pyStrip w)) "www." = false := by
  unfold pyStartsWith at h ⊢
  cases hn : (pyLower (pyStrip w)).toList with
  | nil => rw [hn] at h; simp [listIsPre] at h
  | cons c t =>
    rw [hn] at h
    simp only [listIsPre, Bool.and_eq_true, decide_eq_true_eq] at h
    obtain ⟨hc, -⟩ := h
    simp [listIsPre, ← hc]

/- ---------------------------------------------------------------------
Claim theorems.
--------------------------------------------------------------------- -/

/-- C1: evaluation of the intra-run duplicate check at the spec's own
example. The claim says that after admitting a candidate with website
`https://acme.com/`, a candidate with website `https://www.acme.com` is
rejected, the two websites differing only by a leading `www.` after the URL
scheme. The code computes different normalized keys (its `www.` strip fires
only when the whole string starts with `www.`, which no `http`-prefixed
website does — see `www_branch_unreachable_for_http`), so the second
candidate is admitted, not rejected. -/
theorem dedup_admits_www_variant_after_scheme :
    (processCandidate [] "A" "https://acme.com/").1 = true ∧
    (processCandidate (processCandidate [] "A" "https://acme.com/").2
        "A2" "https://www.acme.com").1 = true ∧
    normalized_website "https://www.acme.com" ≠ normalized_website "https://acme.com/" := by
  decide

/-- C4: a record is kept by the `successful_analyses` filter of src/main.py
lines 229-232 exactly when its final pain-points field starts with neither
`Analysis failed` nor `Analysis skipped`. -/
theorem successful_analyses_mem_iff (l : List CompanyRecord) (c : CompanyRecord) :
    c ∈ successful_analyses l ↔
      c ∈ l ∧ pyStartsWith c.pain_points "Analysis failed" = false ∧
        pyStartsWith c.pain_points "Analysis skipped" = false := by
  simp [successful_analyses, List.mem_filter, Bool.and_eq_true, and_assoc]

/-- C6: `classify_company` ignores its name and website arguments, returns
`"HR"` exactly when some keyword of the fixed HR set occurs in the
lower-cased source URL and `"NE_B2B"` otherwise; in particular a source
containing `hr-insights.com` is classified `HR` and `newengland-biz.org`
is classified `NE_B2B`. -/
theorem classify_company_spec (n w n2 w2 src : String) :
    classify_company n w src = classify_company n2 w2 src ∧
    (classify_company n w src = "HR" ↔
      ∃ k ∈ hr_keywords, pyIn k (pyLower src) = true) ∧
    (classify_company n w src = "HR" ∨ classify_company n w src = "NE_B2B") ∧
    classify_company "Acme" "https://acme.com" "https://hr-insights.com/articles" = "HR" ∧
    classify_company "Acme" "https://acme.com" "newengland-biz.org" = "NE_B2B" := by
  refine ⟨rfl, ?_, ?_, by decide, by decide⟩
  · by_cases h : hr_keywords.any (fun keyword => pyIn keyword (pyLower src)) = true
    · constructor
      · intro _
        simpa [List.any_eq_true] using h
      · intro _
        simp [classify_company, h]
    · constructor
      · intro hc
        have hne : classify_company n w src = "NE_B2B" := by simp [classify_company, h]
        rw [hne] at hc
        exact absurd hc (by decide)
      · intro hex
        exact absurd (List.any_eq_true.mpr (by simpa using hex)) h
  · by_cases h : hr_keywords.any (fun keyword => pyIn keyword (pyLower src)) = true
    · exact Or.inl (by simp [classify_company, h])
    · exact Or.inr (by simp [classify_company, h])

/-- C2 counterexample: the cleaned text `["see https://a.com"]` parses
strictly as a one-element list whose entry fails validation (it does not
start with `http`), yet `parse_url_list` returns that empty strict result
instead of falling back to the regex scan, which would have produced
`["https://a.com"]`. So "strict parsing succeeds but yields no valid item"
does not trigger the fallback, contradicting the claim. -/
theorem parse_url_list_empty_strict_no_fallback :
    parse_url_list (some (PyVal.list [PyVal.str "see https://a.com"]))
        "[\"see https://a.com\"]" = [] ∧
    regexUrlFallback (stripFinalAnswer "[\"see https://a.com\"]") = ["https://a.com"] := by
  decide

/-- C2 (amended): the regex fallback of `parse_url_list` runs exactly when
strict parsing raises or yields a non-list; a parsed list is returned after
validation filtering even when that filter keeps nothing. On the fallback
path the result is deduplicated preserving first-seen order: it has no
duplicates, is an order-preserving sublist of the scanned-trimmed-filtered
URL list, and retains every element of it. -/
theorem parse_url_list_fallback_characterization (ev : Option PyVal) (s : String)
    (h : ∀ l, ev ≠ some (PyVal.list l)) :
    parse_url_list ev s = regexUrlFallback (stripFinalAnswer s) ∧
    (∀ l, parse_url_list (some (PyVal.list l)) s = astUrlFilter l) ∧
    (parse_url_list ev s).Nodup ∧
    List.Sublist (parse_url_list ev s) (regexUrlsPre (stripFinalAnswer s)) ∧
    (∀ u ∈ regexUrlsPre (stripFinalAnswer s), u ∈ parse_url_list ev s) := by
  have hfall : parse_url_list ev s = regexUrlFallback (stripFinalAnswer s) := by
    match ev with
    | Option.none => rfl
    | some (PyVal.str _) => rfl
    | some (PyVal.int _) => rfl
    | some (PyVal.dict _) => rfl
    | some PyVal.none => rfl
    | some (PyVal.list l) => exact absurd rfl (h l)
  refine ⟨hfall, fun l => rfl, ?_, ?_, ?_⟩
  · rw [hfall]
    exact dedupFirst_nodup _
  · rw [hfall]
    exact dedupFirst_sublist _
  · intro u hu
    rw [hfall]
    exact dedupFirst_mem _ u hu

/-- C2 witness: instantiation of the fallback characterization at a parse
failure on a text holding a duplicated URL. -/
theorem parse_url_list_fallback_characterization_witness :
    parse_url_list Option.none "go http://a.com or http://a.com now" = ["http://a.com"] := by
  have h := parse_url_list_fallback_characterization Option.none
      "go http://a.com or http://a.com now" (fun l => by simp)
  rw [h.1]
  decide

theorem listIsPre_self_append (p z : List Char) : listIsPre p (p ++ z) = true := by
  induction p with
  | nil => rfl
  | cons a t ih => simp [listIsPre, ih]

theorem listIsPre_mono (p q : List Char) : ∀ l : List Char,
    listIsPre (p ++ q) l = true → listIsPre p l = true := by
  induction p with
  | nil => intro l _; rfl
  | cons a t ih =>
    intro l h
    cases l with
    | nil => simp [listIsPre] at h
    | cons b ls =>
      simp only [List.cons_append, listIsPre, Bool.and_eq_true] at h ⊢
      exact ⟨h.1, ih ls h.2⟩

theorem pyStrip_length_le (s : String) : (pyStrip s).length ≤ s.length := by
  show (pyStripList s.toList).length ≤ s.toList.length
  calc (pyStripList s.toList).length
      ≤ (s.toList.dropWhile pySpace).length :=
        ( List.rdropWhile_prefix _ _).sublist.length_le
    _ ≤ s.toList.length := (List.dropWhile_sublist _).length_le

theorem string_pos_of_ne_empty (s : String) (h : s ≠ "") : 0 < s.length := by
  cases s with
  | mk data =>
    cases data with
    | nil => exact absurd (by decide) h
    | cons a t => simp [String.length]

/-- C3 counterexample: for the literal
`[{"name": "a ", "website": "http://x.com"}]` the length guard
`1 < len(name) < 60` is evaluated on the unstripped name `"a "` (length 2),
but the stored entry holds the stripped name `"a"` of length 1, so the
returned entry violates `1 < len(name)`. -/
theorem parse_company_list_length_one_name :
    parse_company_website_list
        (some (PyVal.list
          [PyVal.dict [("name", PyVal.str "a "), ("website", PyVal.str "http://x.com")]])) =
      [{ name := "a", website := "http://x.com" }] ∧
    ¬ (1 < ({ name := "a", website := "http://x.com" } : Company).name.length) := by
  exact ⟨by decide, by decide⟩

theorem astCompanyFilter_sound (l : List PyVal) (c : Company)
    (hc : c ∈ astCompanyFilter l) :
    0 < c.name.length ∧ c.name.length < 60 ∧ pyStartsWith c.website "http" = true := by
  rw [astCompanyFilter, List.mem_filterMap] at hc
  obtain ⟨item, -, hf⟩ := hc
  cases item with
  | str s => simp at hf
  | int n => simp at hf
  | list l2 => simp at hf
  | none => simp at hf
  | dict d =>
    simp only at hf
    split at hf
    case h_2 => simp at hf
    case h_1 =>
      split at hf
      case isFalse => simp at hf
      case isTrue hcond =>
        obtain ⟨h1, h2, h3, h4⟩ := hcond
        cases Option.some.inj hf
        exact ⟨string_pos_of_ne_empty _ h1, lt_of_le_of_lt (pyStrip_length_le _) h4, h2⟩

/-- C3 (amended): every entry returned by `parse_company_website_list` has a
non-empty name shorter than 60 characters (the unstripped parsed name had
length strictly between 1 and 60, but the stored name is stripped and can
have length exactly 1), and a website starting with `http`. -/
theorem parse_company_list_validation (ev : Option PyVal) (c : Company)
    (hc : c ∈ parse_company_website_list ev) :
    0 < c.name.length ∧ c.name.length < 60 ∧ pyStartsWith c.website "http" = true := by
  match ev with
  | some (PyVal.list l) => exact astCompanyFilter_sound l c hc
  | Option.none => simp [parse_company_website_list] at hc
  | some (PyVal.str _) => simp [parse_company_website_list] at hc
  | some (PyVal.int _) => simp [parse_company_website_list] at hc
  | some (PyVal.dict _) => simp [parse_company_website_list] at hc
  | some PyVal.none => simp [parse_company_website_list] at hc

/-- C3 witness: instantiation of the validation soundness at a concrete
parsed entry. -/
theorem parse_company_list_validation_witness :
    0 < ("Acme" : String).length ∧ ("Acme" : String).length < 60 ∧
      pyStartsWith "https://acme.com" "http" = true := by
  have h := parse_company_list_validation
      (some (PyVal.list [PyVal.dict
        [("name", PyVal.str "Acme"), ("website", PyVal.str "https://acme.com")]]))
      { name := "Acme", website := "https://acme.com" } (by decide)
  exact h

theorem dropWhile_append_cases (p : Char → Bool) (as bs : List Char) :
    List.dropWhile p (as ++ bs) = as.dropWhile p ++ bs ∨
      (as.dropWhile p = [] ∧ List.dropWhile p (as ++ bs) = List.dropWhile p bs) := by
  induction as with
  | nil => exact Or.inr ⟨rfl, rfl⟩
  | cons a t ih =>
    by_cases h : p a = true
    · simpa [List.dropWhile_cons, h] using ih
    · left
      simp [List.dropWhile_cons, h]

theorem rdropWhile_append_keeps_head (p : Char → Bool) (xs ys : List Char)
    (hxs : xs.reverse.dropWhile p = xs.reverse) :
    ∃ z, List.rdropWhile p (xs ++ ys) = xs ++ z := by
  simp only [List.rdropWhile, List.reverse_append]
  rcases dropWhile_append_cases p ys.reverse xs.reverse with h | ⟨h1, h2⟩
  · exact ⟨(ys.reverse.dropWhile p).reverse,
      by rw [h, List.reverse_append, List.reverse_reverse]⟩
  · rw [h2, hxs]
    exact ⟨[], by simp⟩

theorem stripUrlEdges_keeps_https (body : List Char) :
    ∃ z, stripUrlEdges (schemeHttps ++ body) = schemeHttps ++ z := by
  unfold stripUrlEdges
  have hfront : (schemeHttps ++ body).dropWhile urlTrimChar = schemeHttps ++ body := by
    simp [schemeHttps, List.dropWhile_cons, urlTrimChar]
  rw [hfront]
  exact rdropWhile_append_keeps_head _ _ _ (by decide)

theorem stripUrlEdges_keeps_http (body : List Char) :
    ∃ z, stripUrlEdges (schemeHttp ++ body) = schemeHttp ++ z := by
  unfold stripUrlEdges
  have hfront : (schemeHttp ++ body).dropWhile urlTrimChar = schemeHttp ++ body := by
    simp [schemeHttp, List.dropWhile_cons, urlTrimChar]
  rw [hfront]
  exact rdropWhile_append_keeps_head _ _ _ (by decide)

theorem urlToken_shape (l m rest : List Char) (h : urlToken l = some (m, rest)) :
    (∃ b, m = schemeHttps ++ b) ∨ (∃ b, m = schemeHttp ++ b) := by
  simp only [urlToken] at h
  split at h
  · split at h
    · exact absurd h (by simp)
    · simp only [Option.some.injEq, Prod.mk.injEq] at h
      exact Or.inl ⟨_, h.1.symm⟩
  · split at h
    · split at h
      · exact absurd h (by simp)
      · simp only [Option.some.injEq, Prod.mk.injEq] at h
        exact Or.inr ⟨_, h.1.symm⟩
    · exact absurd h (by simp)

theorem findAllUrlsGo_scheme : ∀ (fuel : Nat) (l m : List Char),
    m ∈ findAllUrlsGo fuel l →
    (∃ b, m = schemeHttps ++ b) ∨ (∃ b, m = schemeHttp ++ b)
  | 0, l, m, h => by simp [findAllUrlsGo] at h
  | fuel + 1, [], m, h => by simp [findAllUrlsGo] at h
  | fuel + 1, c :: t, m, h => by
    cases htok : urlToken (c :: t) with
    | some pr =>
      obtain ⟨m0, r0⟩ := pr
      rw [findAllUrlsGo, htok] at h
      rcases List.mem_cons.mp h with rfl | h2
      · exact urlToken_shape _ _ _ htok
      · exact findAllUrlsGo_scheme fuel r0 m h2
    | none =>
      rw [findAllUrlsGo, htok] at h
      exact findAllUrlsGo_scheme fuel t m h

theorem astUrlFilter_http (l : List PyVal) (u : String) (hu : u ∈ astUrlFilter l) :
    pyStartsWith u "http" = true := by
  rw [astUrlFilter, List.mem_filterMap] at hu
  obtain ⟨v, -, hv⟩ := hu
  cases v with
  | str s =>
    simp only at hv
    split at hv
    case isTrue hcond => cases Option.some.inj hv; exact hcond
    case isFalse => simp at hv
  | int n => simp at hv
  | list l2 => simp at hv
  | dict d => simp at hv
  | none => simp at hv

theorem regexUrlFallback_invariants (s u : String) (hu : u ∈ regexUrlFallback s) :
    (pyStartsWith u "http://" = true ∨ pyStartsWith u "https://" = true) ∧
    hasBadExtension u = false := by
  have hu2 : u ∈ regexUrlsPre s := (dedupFirst_sublist _).mem hu
  rw [regexUrlsPre, List.mem_filter] at hu2
  obtain ⟨hmem, hext⟩ := hu2
  rw [List.mem_map] at hmem
  obtain ⟨m, hm, rfl⟩ := hmem
  rw [findAllUrls] at hm
  refine ⟨?_, by simpa using hext⟩
  rcases findAllUrlsGo_scheme _ _ _ hm with ⟨b, rfl⟩ | ⟨b, rfl⟩
  · right
    obtain ⟨z, hz⟩ := stripUrlEdges_keeps_https b
    show listIsPre "https://".toList (stripUrlEdges (schemeHttps ++ b)) = true
    rw [hz]
    have hchars : "https://".toList = schemeHttps := by decide
    rw [hchars]
    exact listIsPre_self_append _ _
  · left
    obtain ⟨z, hz⟩ := stripUrlEdges_keeps_http b
    show listIsPre "http://".toList (stripUrlEdges (schemeHttp ++ b)) = true
    rw [hz]
    have hchars : "http://".toList = schemeHttp := by decide
    rw [hchars]
    exact listIsPre_self_append _ _

/-- C7 counterexample: the strict (literal) path of `parse_url_list` only
checks the `http` prefix and applies no extension filter, so the literal
`["https://a.com/logo.png"]` is returned unchanged even though it ends with
the known non-page extension `.png`. -/
theorem parse_url_list_strict_keeps_asset_url :
    parse_url_list (some (PyVal.list [PyVal.str "https://a.com/logo.png"]))
        "[\"https://a.com/logo.png\"]" = ["https://a.com/logo.png"] ∧
    pyEndsWith (pyLower "https://a.com/logo.png") ".png" = true := by
  exact ⟨by decide, by decide⟩

/-- C7 (amended): every URL returned by `parse_url_list` begins with `http`;
on the regex-fallback path every URL moreover begins with a full `http://`
or `https://` scheme and does not end with a known non-page asset
extension. The strict path guarantees only the `http` prefix. -/
theorem parse_url_list_url_invariants (ev : Option PyVal) (s u : String) :
    (u ∈ parse_url_list ev s → pyStartsWith u "http" = true) ∧
    (u ∈ regexUrlFallback (stripFinalAnswer s) →
      (pyStartsWith u "http://" = true ∨ pyStartsWith u "https://" = true) ∧
        hasBadExtension u = false) := by
  have hfb : u ∈ regexUrlFallback (stripFinalAnswer s) →
      (pyStartsWith u "http://" = true ∨ pyStartsWith u "https://" = true) ∧
        hasBadExtension u = false :=
    fun hu => regexUrlFallback_invariants _ u hu
  refine ⟨?_, hfb⟩
  have hfb4 : u ∈ regexUrlFallback (stripFinalAnswer s) → pyStartsWith u "http" = true := by
    intro hu
    rcases (hfb hu).1 with h | h
    · have hsplit : "http://".toList = "http".toList ++ [':', '/', '/'] := by decide
      rw [pyStartsWith, hsplit] at h
      exact listIsPre_mono _ _ _ h
    · have hsplit : "https://".toList = "http".toList ++ ['s', ':', '/', '/'] := by decide
      rw [pyStartsWith, hsplit] at h
      exact listIsPre_mono _ _ _ h
  intro hu
  match ev with
  | some (PyVal.list l) => exact astUrlFilter_http l u hu
  | Option.none => exact hfb4 hu
  | some (PyVal.str _) => exact hfb4 hu
  | some (PyVal.int _) => exact hfb4 hu
  | some (PyVal.dict _) => exact hfb4 hu
  | some PyVal.none => exact hfb4 hu

/-- C7 witness: instantiation of the URL invariants at a concrete fallback
extraction. -/
theorem parse_url_list_url_invariants_witness :
    pyStartsWith "https://a.com" "http" = true ∧
    (pyStartsWith "https://a.com" "http://" = true ∨
      pyStartsWith "https://a.com" "https://" = true) ∧
    hasBadExtension "https://a.com" = false := by
  have h := parse_url_list_url_invariants Option.none "x https://a.com" "https://a.com"
  exact ⟨h.1 (by decide), h.2 (by decide)⟩

theorem reviewStage_preserves (env : AnalyzeEnv) (category initial_pain_points : String)
    (data : CompanyRecord) :
    (reviewStage env category initial_pain_points data).name = data.name ∧
    (reviewStage env category initial_pain_points data).website = data.website ∧
    (reviewStage env category initial_pain_points data).contact_email = data.contact_email ∧
    (reviewStage env category initial_pain_points data).category = data.category := by
  unfold reviewStage
  split
  · exact ⟨rfl, rfl, rfl, rfl⟩
  split
  · exact ⟨rfl, rfl, rfl, rfl⟩
  split
  · exact ⟨rfl, rfl, rfl, rfl⟩
  split
  · split
    · exact ⟨rfl, rfl, rfl, rfl⟩
    · dsimp only
      split
      · exact ⟨rfl, rfl, rfl, rfl⟩
      · exact ⟨rfl, rfl, rfl, rfl⟩
  · exact ⟨rfl, rfl, rfl, rfl⟩

theorem parse_pain_nonempty (email_matches pain_matches : List String) (s : String) :
    (parse_analysis_results email_matches pain_matches s).2 ≠ "" := by
  unfold parse_analysis_results
  dsimp only
  split
  case isTrue h =>
    split
    case isTrue h2 => exact h2.1
    case isFalse =>
      show sentinelNoPain ≠ ""
      decide
  case isFalse h =>
    intro hc
    exact h (by rw [show painPreFallback email_matches pain_matches s = "" from hc]; decide)

/-- C8: on string input `parse_analysis_results` is total (the embedding is
a total function, mirroring that the source method never raises), and its
final fallback is exact: when no labeled section matched
(`pain_matches = []`) and the pre-fallback narrative strips to empty (it is
empty or was the email alone and was zeroed out), the returned pain points
are the residual text (the prefix-stripped input with every occurrence of
the email removed, then stripped) whenever that residual is non-empty and
longer than 10 characters, and the fixed sentinel otherwise. -/
theorem parse_analysis_fallback_exact (email_matches pain_matches : List String)
    (result : String) (hpm : pain_matches = [])
    (h0 : pyStrip (painPreFallback email_matches pain_matches result) = "") :
    (parse_analysis_results email_matches pain_matches result).2 =
      if residualText email_matches result ≠ "" ∧
          (residualText email_matches result).length > 10 then
        residualText email_matches result
      else sentinelNoPain := by
  subst hpm
  unfold parse_analysis_results
  dsimp only
  rw [if_pos h0]
  split
  case isTrue h2 => rfl
  case isFalse h2 => rfl

/-- C8 witness: a whitespace-only analysis output degrades to the sentinel. -/
theorem parse_analysis_fallback_exact_witness :
    (parse_analysis_results [] [] " \n ").2 = sentinelNoPain := by
  have h := parse_analysis_fallback_exact [] [] " \n " rfl (by decide)
  rw [h]
  decide

/-- C9: non-string analysis output yields exactly
`("", "Analysis failed - non-string result")`; such a record carries the
failure-marker prefix and is dropped by the `successful_analyses` filter;
and for every input the returned pain points are a non-empty string. -/
theorem parse_analysis_non_string (email_matches pain_matches : List String) (v : PyVal) :
    ((∀ s, v ≠ PyVal.str s) →
      parse_analysis_results_any email_matches pain_matches v =
        ("", "Analysis failed - non-string result")) ∧
    (parse_analysis_results_any email_matches pain_matches v).2 ≠ "" ∧
    ((∀ s, v ≠ PyVal.str s) →
      successful_analyses
        [{ name := "", website := "",
           pain_points := (parse_analysis_results_any email_matches pain_matches v).2,
           contact_email := "", category := "" }] = []) := by
  have hval : (∀ s, v ≠ PyVal.str s) →
      parse_analysis_results_any email_matches pain_matches v =
        ("", "Analysis failed - non-string result") := by
    intro h
    cases v with
    | str s => exact absurd rfl (h s)
    | int n => rfl
    | list l => rfl
    | dict d => rfl
    | none => rfl
  refine ⟨hval, ?_, ?_⟩
  · cases v with
    | str s => exact parse_pain_nonempty email_matches pain_matches s
    | int n =>
      show ("Analysis failed - non-string result" : String) ≠ ""
      decide
    | list l =>
      show ("Analysis failed - non-string result" : String) ≠ ""
      decide
    | dict d =>
      show ("Analysis failed - non-string result" : String) ≠ ""
      decide
    | none =>
      show ("Analysis failed - non-string result" : String) ≠ ""
      decide
  · intro h
    rw [hval h]
    decide

/-- C9 witness: instantiation at the non-string value `None`. -/
theorem parse_analysis_non_string_witness :
    parse_analysis_results_any [] [] PyVal.none = ("", "Analysis failed - non-string result") ∧
    successful_analyses
      [{ name := "", website := "",
         pain_points := (parse_analysis_results_any [] [] PyVal.none).2,
         contact_email := "", category := "" }] = [] := by
  have h := parse_analysis_non_string [] [] PyVal.none
  have hns : ∀ s, PyVal.none ≠ PyVal.str s := by intro s hc; cases hc
  exact ⟨h.1 hns, h.2.2 hns⟩

theorem analyze_company_stage1 (env : AnalyzeEnv) (n w cat : String)
    (hcat : cat = "HR" ∨ cat = "NE_B2B")
    (hav : analysisValidFor env cat = true)
    (htc : env.analysisTaskCreated = true)
    (s1 : String) (hk : env.analysisKick = KickRes.raw s1) (hs1 : s1 ≠ "") :
    analyze_company env n w cat =
      reviewStage env cat
        (parse_analysis_results env.analysisEmailMatches env.analysisPainMatches s1).2
        { name := n, website := w,
          pain_points :=
            (parse_analysis_results env.analysisEmailMatches env.analysisPainMatches s1).2,
          contact_email :=
            (parse_analysis_results env.analysisEmailMatches env.analysisPainMatches s1).1,
          category := cat } := by
  unfold analyze_company
  dsimp only
  rw [if_pos hcat, hav, htc, hk]
  rw [if_neg (by decide : ¬(true = false)), if_neg (by decide : ¬(true = false))]
  dsimp only
  rw [if_neg hs1]

/-- Collaborator environment exercising the review cycle with a review
output that begins with the reserved failure-marker prefix
`Analysis skipped`. The analysis raw output `Pain Points: High turnover in
staffing` has the labeled-section match `" High turnover in staffing"` and
no email match; the review raw output `Analysis skipped: no relevant pain
points` matches neither the email pattern nor the labeled-section pattern
(no colon or newline directly follows the word `Analysis`). -/
def reviewSkipEnv : AnalyzeEnv :=
  { hrAnalysisValid := true, hrReviewerValid := true,
    neAnalysisValid := true, neReviewerValid := true,
    analysisTaskCreated := true,
    analysisKick := KickRes.raw "Pain Points: High turnover in staffing",
    analysisEmailMatches := [],
    analysisPainMatches := [" High turnover in staffing"],
    reviewTaskCreated := true,
    reviewExec := KickRes.raw "Analysis skipped: no relevant pain points",
    reviewEmailMatches := [], reviewPainMatches := [] }

/-- C5 counterexample: the review guard of src/company_extractor.py line 344
checks only the `Analysis failed` prefix, so parsed review output that
starts with the other reserved failure marker, `Analysis skipped`, is
adopted and replaces the pre-review pain points (which were
`High turnover in staffing`, as the same run with no review output shows) —
the review stage does replace pre-review pain points with a failure-marked
value, contradicting the claim. -/
theorem review_adopts_skipped_marker :
    (analyze_company reviewSkipEnv "Acme" "https://acme.com" "HR").pain_points =
      "Analysis skipped: no relevant pain points" ∧
    pyStartsWith "Analysis skipped: no relevant pain points" "Analysis skipped" = true ∧
    (analyze_company { reviewSkipEnv with reviewExec := KickRes.noObj }
        "Acme" "https://acme.com" "HR").pain_points = "High turnover in staffing" := by
  exact ⟨by decide, by decide, by decide⟩

/-- C5 (amended): on the review path — valid category, valid analysis and
reviewer agents, created tasks, non-empty analysis and review raw outputs,
and initial pain points passing the review guard — the parsed review pain
points replace the pre-review pain points exactly when they are non-empty,
do not start with `Analysis failed` (only this one failure marker is
checked; output starting with `Analysis skipped` can be adopted, see the
counterexample), and differ from the pre-review pain points; otherwise the
pre-review value is kept. The finalized pain points are never empty and
never start with `Analysis failed`. -/
theorem review_decision_rule (env : AnalyzeEnv) (n w cat : String)
    (hcat : cat = "HR" ∨ cat = "NE_B2B")
    (hav : analysisValidFor env cat = true)
    (hrv : reviewerValidFor env cat = true)
    (htc : env.analysisTaskCreated = true)
    (s1 : String) (hk : env.analysisKick = KickRes.raw s1) (hs1 : s1 ≠ "")
    (hguard :
      ¬((parse_analysis_results env.analysisEmailMatches env.analysisPainMatches s1).2 = "" ∨
        pyStartsWith (parse_analysis_results env.analysisEmailMatches
          env.analysisPainMatches s1).2 "Initial analysis failed" = true ∨
        pyStartsWith (parse_analysis_results env.analysisEmailMatches
          env.analysisPainMatches s1).2 "Analysis failed" = true))
    (hrt : env.reviewTaskCreated = true)
    (s2 : String) (hr : env.reviewExec = KickRes.raw s2) (hs2 : s2 ≠ "") :
    (analyze_company env n w cat).pain_points =
      (if (parse_analysis_results env.reviewEmailMatches env.reviewPainMatches s2).2 ≠ "" ∧
          pyStartsWith (parse_analysis_results env.reviewEmailMatches
            env.reviewPainMatches s2).2 "Analysis failed" = false ∧
          (parse_analysis_results env.reviewEmailMatches env.reviewPainMatches s2).2 ≠
            (parse_analysis_results env.analysisEmailMatches env.analysisPainMatches s1).2 then
        (parse_analysis_results env.reviewEmailMatches env.reviewPainMatches s2).2
      else (parse_analysis_results env.analysisEmailMatches env.analysisPainMatches s1).2) ∧
    (analyze_company env n w cat).pain_points ≠ "" ∧
    pyStartsWith (analyze_company env n w cat).pain_points "Analysis failed" = false := by
  rw [analyze_company_stage1 env n w cat hcat hav htc s1 hk hs1]
  unfold reviewStage
  rw [hrv, hrt, hr]
  rw [if_neg (by decide : ¬(true = false)), if_neg hguard,
    if_neg (by decide : ¬(true = false))]
  try dsimp only
  rw [if_neg hs2]
  try dsimp only
  split
  case isTrue hcond =>
    exact ⟨rfl, hcond.1, hcond.2.1⟩
  case isFalse hcond =>
    refine ⟨rfl, fun h => hguard (Or.inl h), ?_⟩
    cases hb : pyStartsWith (parse_analysis_results env.analysisEmailMatches
        env.analysisPainMatches s1).2 "Analysis failed" with
    | false => rfl
    | true => exact absurd (Or.inr (Or.inr hb)) hguard

/-- C5 witness: instantiation of the review decision rule at the concrete
review-cycle environment. -/
theorem review_decision_rule_witness :
    (analyze_company reviewSkipEnv "Acme" "https://acme.com" "HR").pain_points ≠ "" ∧
    pyStartsWith (analyze_company reviewSkipEnv "Acme" "https://acme.com" "HR").pain_points
      "Analysis failed" = false := by
  have h := review_decision_rule reviewSkipEnv "Acme" "https://acme.com" "HR"
    (Or.inl rfl) (by decide) (by decide) (by decide)
    "Pain Points: High turnover in staffing" rfl (by decide) (by decide) (by decide)
    "Analysis skipped: no relevant pain points" rfl (by decide)
  exact ⟨h.2.1, h.2.2⟩

/-- C10: `analyze_company` is total over every collaborator behaviour
(mirroring that the source catches every exception), and on every path the
returned record carries exactly the `name`, `website` and `category` passed
in, plus a `contact_email` string that is empty unless the analysis stage
produced a non-empty raw output, in which case it is the email parsed from
that output. -/
theorem analyze_company_frame (env : AnalyzeEnv) (n w c : String) :
    (analyze_company env n w c).name = n ∧
    (analyze_company env n w c).website = w ∧
    (analyze_company env n w c).category = c ∧
    ((analyze_company env n w c).contact_email = "" ∨
      ∃ s, env.analysisKick = KickRes.raw s ∧ s ≠ "" ∧
        (analyze_company env n w c).contact_email =
          (parse_analysis_results env.analysisEmailMatches env.analysisPainMatches s).1) := by
  unfold analyze_company
  dsimp only
  split
  case isFalse => exact ⟨rfl, rfl, rfl, Or.inl rfl⟩
  case isTrue hcat =>
    split
    case isTrue => exact ⟨rfl, rfl, rfl, Or.inl rfl⟩
    case isFalse =>
      split
      case isTrue => exact ⟨rfl, rfl, rfl, Or.inl rfl⟩
      case isFalse =>
        cases hk : env.analysisKick with
        | raises en em => exact ⟨rfl, rfl, rfl, Or.inl rfl⟩
        | noObj =>
          have hp := reviewStage_preserves env c "Initial analysis failed: No output object."
            { name := n, website := w,
              pain_points := "Initial analysis failed: No output object.",
              contact_email := "", category := c }
          exact ⟨hp.1, hp.2.1, hp.2.2.2, Or.inl hp.2.2.1⟩
        | noRaw =>
          have hp := reviewStage_preserves env c
            "Initial analysis failed: Could not extract raw output."
            { name := n, website := w,
              pain_points := "Initial analysis failed: Could not extract raw output.",
              contact_email := "", category := c }
          exact ⟨hp.1, hp.2.1, hp.2.2.2, Or.inl hp.2.2.1⟩
        | raw s =>
          dsimp only
          by_cases hs : s = ""
          · rw [if_pos hs]
            have hp := reviewStage_preserves env c
              "Initial analysis failed: Could not extract raw output."
              { name := n, website := w,
                pain_points := "Initial analysis failed: Could not extract raw output.",
                contact_email := "", category := c }
            exact ⟨hp.1, hp.2.1, hp.2.2.2, Or.inl hp.2.2.1⟩
          · rw [if_neg hs]
            have hp := reviewStage_preserves env c
              (parse_analysis_results env.analysisEmailMatches env.analysisPainMatches s).2
              { name := n, website := w,
                pain_points :=
                  (parse_analysis_results env.analysisEmailMatches env.analysisPainMatches s).2,
                contact_email :=
                  (parse_analysis_results env.analysisEmailMatches env.analysisPainMatches s).1,
                category := c }
            exact ⟨hp.1, hp.2.1, hp.2.2.2, Or.inr ⟨s, rfl, hs, hp.2.2.1⟩⟩
